import Mathlib

/-!
# Verification of the rainbow-table cracker (`src/main.rs`)

Shallow embedding of the program's core: the SHA-1 digest (the `sha1` crate
used by `hash`), the `reduce` function, the chain construction and table
generation of `generate_rainbow_table`, the JSON persistence of
`save_rainbow_table` / `load_rainbow_table`, and the `crack_hash` search.

Strings are modelled as lists of byte values (`List Nat`, each < 256), which
is exact for the ASCII data the program manipulates; machine `u32` arithmetic
is modelled on `Nat` with explicit reduction modulo `2^32` where Rust wraps.
Rust panics (the `expect` on hex decoding, out-of-bounds slice indexing) are
modelled as explicit `Panic` results and `Option` failures.
-/

namespace Rainbow

/-- `2^32`, the modulus of Rust `u32` arithmetic. -/
def M32 : Nat := 4294967296

/-- Rotate a 32-bit word left by `k` bits (0 < k < 32). -/
def rotl (k x : Nat) : Nat := ((x <<< k) % M32) + (x >>> (32 - k))

/-! ## SHA-1

Modelled from the spec: the repository's `hash` function calls the external
`sha1` crate, whose code is not part of this repository; the spec requires the
digest to "match a well-known standard one-way hash algorithm bit-for-bit"
(SHA-1, 20-byte output).  The definitions below implement FIPS-180 SHA-1.
The 16-word schedule window and the 80-word round stream are packed into a
single `Nat` (32 bits per word, earliest word in the lowest bits) so that the
whole compression function is built from kernel-accelerated `Nat` primitives.
-/
/-- SHA-1 round function `f_t`. -/
def sha1F (t b c d : Nat) : Nat :=
  if t < 20 then (b &&& c) ||| ((b ^^^ 4294967295) &&& d)
  else if t < 40 then (b ^^^ c) ^^^ d
  else if t < 60 then ((b &&& c) ||| (b &&& d)) ||| (c &&& d)
  else (b ^^^ c) ^^^ d

/-- SHA-1 round constant `K_t`. -/
def sha1K (t : Nat) : Nat :=
  if t < 20 then 1518500249
  else if t < 40 then 1859775393
  else if t < 60 then 2400959708
  else 3395469782

/-- One schedule step: from the packed window `w` of the 16 previous words
`w[t-16..t-1]` (oldest in the low 32 bits), the new word
`rotl1 (w[t-3] xor w[t-8] xor w[t-14] xor w[t-16])`. -/
def schedStep (w : Nat) : Nat :=
  rotl 1 (((((w >>> 416) ^^^ (w >>> 256)) ^^^ (w >>> 64)) ^^^ w) % M32)

/-- Generate `f` further schedule words from packed window `w`, returned
packed (first generated word in the low 32 bits). -/
def schedule : Nat → Nat → Nat
  | 0, _ => 0
  | f+1, w =>
    let nw := schedStep w
    nw + ((schedule f ((w >>> 32) + (nw <<< 480))) <<< 32)

/-- The SHA-1 working state `(a, b, c, d, e)`. -/
abbrev Sha1State := Nat × Nat × Nat × Nat × Nat

/-- Run `f` SHA-1 rounds starting at round `t`; `ws` is the packed stream of
remaining round words (current word in the low 32 bits). -/
def sha1Rounds : Nat → Nat → Nat → Sha1State → Sha1State
  | 0, _, _, s => s
  | f+1, t, ws, (a, b, c, d, e) =>
    let tmp := ((((rotl 5 a + sha1F t b c d) + e) + (ws % M32)) + sha1K t) % M32
    sha1Rounds f (t+1) (ws >>> 32) (tmp, a, rotl 30 b, c, d)

/-- SHA-1 initial state `H0..H4`. -/
def sha1Init : Sha1State := (1732584193, 4023233417, 2562383102, 271733878, 3285377520)

/-- Compress one 64-byte block, given packed `w0` (the block's 16 words). -/
def processBlock (h : Sha1State) (w0 : Nat) : Sha1State :=
  let ws := w0 + ((schedule 64 w0) <<< 512)
  match h, sha1Rounds 80 0 ws h with
  | (h0, h1, h2, h3, h4), (a, b, c, d, e) =>
    ((h0 + a) % M32, (h1 + b) % M32, (h2 + c) % M32, (h3 + d) % M32, (h4 + e) % M32)

/-- Pack a list of bytes into big-endian 32-bit words, first word lowest. -/
def packWords : List Nat → Nat
  | b0 :: b1 :: b2 :: b3 :: rest =>
    ((((b0 <<< 24) + (b1 <<< 16)) + (b2 <<< 8)) + b3) + ((packWords rest) <<< 32)
  | _ => 0

/-- The 8-byte big-endian encoding of `n` (the padded bit-length field). -/
def lenBytes (n : Nat) : List Nat :=
  [(n >>> 56) % 256, (n >>> 48) % 256, (n >>> 40) % 256, (n >>> 32) % 256,
   (n >>> 24) % 256, (n >>> 16) % 256, (n >>> 8) % 256, n % 256]

/-- SHA-1 padding: append `0x80`, zero bytes to 56 mod 64, then the 64-bit
big-endian bit length. -/
def padMsg (m : List Nat) : List Nat :=
  let l := m.length
  (m ++ (128 :: List.replicate ((119 - l % 64) % 64) 0)) ++ lenBytes (8 * l)

/-- Compress `f` consecutive 64-byte blocks of `bs`. -/
def sha1Chunks : Nat → Sha1State → List Nat → Sha1State
  | 0, h, _ => h
  | f+1, h, bs => sha1Chunks f (processBlock h (packWords (bs.take 64))) (bs.drop 64)

/-- The 4 bytes of a 32-bit word, big-endian. -/
def wordBytes (w : Nat) : List Nat :=
  [(w >>> 24) % 256, (w >>> 16) % 256, (w >>> 8) % 256, w % 256]

/-- `hash` (src/main.rs lines 19–23): the SHA-1 digest of a byte string,
as the 20-byte list the `sha1` crate's `finalize().to_vec()` returns. -/
def hash (m : List Nat) : List Nat :=
  let p := padMsg m
  let s := sha1Chunks (p.length / 64) sha1Init p
  (((wordBytes s.1 ++ wordBytes s.2.1) ++ wordBytes s.2.2.1) ++ wordBytes s.2.2.2.1) ++
    wordBytes s.2.2.2.2

/-- The bytes of an ASCII string, as `String::as_bytes` produces them. -/
def strBytes (s : String) : List Nat := s.data.map Char.toNat

/-! ## The reduction function (`reduce`, src/main.rs lines 25–42) -/
/-- The fixed 62-symbol alphabet
`b"ABCDEFGHIJKLMNOPQRSTUVWXYZabcdefghijklmnopqrstuvwxyz0123456789"`. -/
def charset : List Nat :=
  strBytes "ABCDEFGHIJKLMNOPQRSTUVWXYZabcdefghijklmnopqrstuvwxyz0123456789"

/-- The byte `charset[idx]`; the source always indexes with `idx < 62`
(`idx = num % 62`), so the `0` default is never taken there. -/
def charsetByte (idx : Nat) : Nat := charset.getD idx 0

/-- The digit-emission loop of `reduce`: `length` times, push
`charset[num % 62]` and divide `num` by 62. -/
def reduceDigits : Nat → Nat → List Nat
  | 0, _ => []
  | len+1, num => charsetByte (num % 62) :: reduceDigits len (num / 62)

/-- The arithmetic core of `reduce` on the first eight bytes: big-endian
`u32` of bytes 0–3, XOR'd with `position as u32`, plus (wrapping) the
big-endian `u32` of bytes 4–7. -/
def reduceNum (b0 b1 b2 b3 b4 b5 b6 b7 : Nat) (position : Nat) : Nat :=
  ((((((b0 <<< 24) + (b1 <<< 16)) + (b2 <<< 8)) + b3) ^^^ (position % M32)) +
    ((((b4 <<< 24) + (b5 <<< 16)) + (b6 <<< 8)) + b7)) % M32

/-- `reduce` (src/main.rs lines 25–42).  A digest of fewer than 8 bytes makes
the Rust slice indexing `hash[0]..hash[7]` panic; that panic is modelled as
`none`. -/
def reduce (h : List Nat) (position : Nat) : Option (List Nat) :=
  match h with
  | b0 :: b1 :: b2 :: b3 :: b4 :: b5 :: b6 :: b7 :: _ =>
    let num := reduceNum b0 b1 b2 b3 b4 b5 b6 b7 position
    some (reduceDigits (6 + num % 3) num)
  | _ => none

/-- Total version of `reduce` used where the digest is a 20-byte `hash`
output and the panic branch is unreachable (`[]` is never produced there). -/
def reduceD (h : List Nat) (position : Nat) : List Nat :=
  (reduce h position).getD []

/-! ## Chain construction (`generate_rainbow_table` loop, src/main.rs 53–57) -/
/-- The chain text after `n` reduction/hash steps from seed `s`:
`text₀ = s`, `textⱼ₊₁ = reduce(hash(textⱼ), j)`. -/
def chainText (s : List Nat) : Nat → List Nat
  | 0 => s
  | j+1 => reduceD (hash (chainText s j)) j

/-- The loop body of src/main.rs lines 54–56 as a left fold over
`j in 0..n`, exactly as the `for` loop executes. -/
def chainLoop (s : List Nat) (n : Nat) : List Nat :=
  (List.range n).foldl (fun t j => reduceD (hash t) j) s

/-- A seed's endpoint digest: `hash` of the text after `n` steps
(src/main.rs line 58). -/
def endpointOf (s : List Nat) (n : Nat) : List Nat := hash (chainLoop s n)

/-- `CHAIN_LENGTH` (src/main.rs line 8). -/
def CHAIN_LENGTH : Nat := 300

/-- The chain continued from text `t` with `k` further steps starting at
position `start` (so `chainFrom s 0 n` walks positions `0..n-1` exactly as
`chainText s n` does); lets long chains be evaluated in bounded-depth
pieces. -/
def chainFrom (t : List Nat) (start : Nat) : Nat → List Nat
  | 0 => t
  | k+1 => chainFrom (reduceD (hash t) start) (start + 1) k

/-! ## Hex encoding and decoding (the `hex` crate: `hex::encode`,
`hex::decode`).  `encode` writes two lowercase hex digits per byte;
`decode` fails on an odd-length input or a non-hex character. -/
/-- The lowercase hex digit for a value `v < 16`. -/
def hexDigit (v : Nat) : Nat := if v < 10 then 48 + v else 87 + v

/-- `hex::encode`: two lowercase digits per byte, high nibble first. -/
def hexEncode : List Nat → List Nat
  | [] => []
  | b :: rest => hexDigit (b / 16) :: hexDigit (b % 16) :: hexEncode rest

/-- The value of one hex digit character (`0-9`, `a-f`, `A-F`), or `none`. -/
def hexVal (c : Nat) : Option Nat :=
  if 48 ≤ c ∧ c ≤ 57 then some (c - 48)
  else if 97 ≤ c ∧ c ≤ 102 then some (c - 87)
  else if 65 ≤ c ∧ c ≤ 70 then some (c - 55)
  else none

/-- `hex::decode`: `none` models the `Err` on odd length or a non-hex
character. -/
def hexDecode : List Nat → Option (List Nat)
  | [] => some []
  | [_] => none
  | c1 :: c2 :: rest =>
    match hexVal c1, hexVal c2, hexDecode rest with
    | some v1, some v2, some bs => some ((16 * v1 + v2) :: bs)
    | _, _, _ => none

/-! ## The rainbow table (`generate_rainbow_table`, src/main.rs 45–67)

The `HashMap<String, String>` is modelled as an association list with
unique keys: `insertKV` replaces the value of an existing key, as
`HashMap::insert` does.  The seed file `list.txt` is an excluded external
interface (spec §1, §6); the model takes the sequence of seed lines as an
argument, in file order. -/
/-- A rainbow table: hex-encoded endpoint digest → seed plaintext. -/
abbrev Table := List (List Nat × List Nat)

/-- `HashMap::insert`: replace the binding of `k` if present, else add it. -/
def insertKV : Table → List Nat → List Nat → Table
  | [], k, v => [(k, v)]
  | (k', v') :: rest, k, v =>
    if k' = k then (k, v) :: rest else (k', v') :: insertKV rest k v

/-- `HashMap::get`. -/
def lookupKV : Table → List Nat → Option (List Nat)
  | [], _ => none
  | (k', v') :: rest, k => if k' = k then some v' else lookupKV rest k

/-- `generate_rainbow_table` (src/main.rs 45–67): for each seed line in
order, run the chain and insert `hex(end_hash) → start_text`. -/
def generate_rainbow_table (seeds : List (List Nat)) (n : Nat) : Table :=
  seeds.foldl (fun tbl s => insertKV tbl (hexEncode (endpointOf s n)) s) []

/-! ## The cracker (`crack_hash`, src/main.rs 84–115)

Rust panics are modelled explicitly: the `expect` on `hex::decode` and the
out-of-bounds byte indexing inside `reduce` (reachable when the decoded
target is shorter than 8 bytes) each produce a `panic` result instead of a
value. -/
/-- The two panics `crack_hash` can raise. -/
inductive Panic where
  /-- `hex::decode(target_hash).expect("無効なハッシュ形式です")` failing. -/
  | invalidHash
  /-- Out-of-bounds slice indexing `hash[0]..hash[7]` inside `reduce`. -/
  | indexOutOfBounds
deriving DecidableEq

/-- The outcome of `crack_hash`: a recovered plaintext (`Some`), no match
(`None`), or a panic. -/
inductive CrackResult where
  | panic (p : Panic)
  | found (pt : List Nat)
  | notFound
deriving DecidableEq

/-- The chain-replay loop (src/main.rs 101–106): from the retrieved seed,
`for k in 0..CHAIN_LENGTH`, return the current plaintext once its hash is
the target, else advance by `reduce(hash(plaintext), k)`.  `reduce` is
applied only to 20-byte `hash` outputs here, so the panic branch is
unreachable and the total `reduceD` is exact. -/
def replayAux (target : List Nat) : Nat → Nat → List Nat → Option (List Nat)
  | 0, _, _ => none
  | f+1, k, pt =>
    if hash pt = target then some pt
    else replayAux target f (k + 1) (reduceD (hash pt) k)

/-- The inner loop of `crack_hash` (src/main.rs 92–112), `f` iterations
from position `j`: build the candidate `reduce(current, j)`, hash it, look
the hex key up; on a hit replay the found seed's chain, returning its
result if any; otherwise (miss, or failed replay) continue with `j+1` and
`current = hash(reduce(current, j))`. -/
def crackInner (tbl : Table) (target : List Nat) (n : Nat) :
    Nat → Nat → List Nat → CrackResult
  | 0, _, _ => .notFound
  | f+1, j, cur =>
    match reduce cur j with
    | none => .panic .indexOutOfBounds
    | some cand =>
      match lookupKV tbl (hexEncode (hash cand)) with
      | some seed =>
        match replayAux target n 0 seed with
        | some p => .found p
        | none => crackInner tbl target n f (j + 1) (hash cand)
      | none => crackInner tbl target n f (j + 1) (hash cand)

/-- The outer loop of `crack_hash` (src/main.rs 88–112): `i` from `n-1`
down to `0` (fuel `f+1` handles `i = f`), each iteration running the inner
loop from `j = i` with `current = target`. -/
def crackOuter (tbl : Table) (target : List Nat) (n : Nat) : Nat → CrackResult
  | 0 => .notFound
  | f+1 =>
    match crackInner tbl target n (n - f) f target with
    | .panic p => .panic p
    | .found pt => .found pt
    | .notFound => crackOuter tbl target n f

/-- `crack_hash` on already-decoded target bytes. -/
def crackBytes (tbl : Table) (target : List Nat) (n : Nat) : CrackResult :=
  crackOuter tbl target n n

/-- `crack_hash` (src/main.rs 84–115): decode the hex target (panicking on
malformed hex, line 85), then run the reverse search. -/
def crack_hash (tbl : Table) (targetHex : List Nat) (n : Nat) : CrackResult :=
  match hexDecode targetHex with
  | none => .panic .invalidHash
  | some target => crackBytes tbl target n

/-! ## Spec-side definitions

Written from the spec's words (§4.2, §4.3) for the refinement claims: they
are compared with the definitions taken from the source. -/
/-- Bytes "interpreted big-endian" as an unsigned integer (spec §4.2). -/
def beU32 (bs : List Nat) : Nat := bs.foldl (fun acc b => 256 * acc + b) 0

/-- The spec's "fixed 62-symbol alphabet (uppercase A–Z, lowercase a–z,
digits 0–9, in that concatenation order)". -/
def specAlphabet : List Nat :=
  (strBytes "ABCDEFGHIJKLMNOPQRSTUVWXYZ" ++ strBytes "abcdefghijklmnopqrstuvwxyz") ++
    strBytes "0123456789"

/-- Spec §4.2 step 4: `length` times, append the alphabet character at
index `num mod 62`, then divide `num` by 62. -/
def specDigits : Nat → Nat → List Nat
  | 0, _ => []
  | len+1, num => specAlphabet.getD (num % 62) 0 :: specDigits len (num / 62)

/-- `reduce` as the spec's words describe it (§4.2, quoted by claim C2):
`num` is the big-endian u32 of digest bytes 0–3 XOR'd with the position
(as the same width), plus — wrapping modulo 2^32 — the big-endian u32 of
bytes 4–7; then `6 + num mod 3` base-62 digits of `num`. -/
def reduceSpec (d : List Nat) (p : Nat) : List Nat :=
  let num := ((beU32 (List.take 4 d) ^^^ (p % M32)) +
    beU32 (List.take 4 (List.drop 4 d))) % M32
  specDigits (6 + num % 3) num

/-! ## Last-write-wins characterization of table construction -/
/-- The last seed, in processing order, whose hex-encoded endpoint is `k`
(the value a `HashMap` holds after inserting every seed's pair in order). -/
def lastSeedFor (seeds : List (List Nat)) (n : Nat) (k : List Nat) : Option (List Nat) :=
  seeds.foldl (fun acc s => if hexEncode (endpointOf s n) = k then some s else acc) none

/-- The control-flow property claim C7 asserts of `crack_hash` (spec §4.5):
when a table lookup hits (`reduce`d candidate found) but the replay of the
retrieved seed's chain reproduces the target at no step, the cracker
abandons the current outer-loop position — that is, the inner loop
immediately reports no result for this `i` so the outer loop moves on. -/
def abandonsFalsePositives : Prop :=
  ∀ (tbl : Table) (target : List Nat) (n f j : Nat) (cur cand seed : List Nat),
    reduce cur j = some cand →
    lookupKV tbl (hexEncode (hash cand)) = some seed →
    replayAux target n 0 seed = none →
    crackInner tbl target n (f + 1) j cur = .notFound

/-! ## JSON persistence (`save_rainbow_table` / `load_rainbow_table`,
src/main.rs 70–81)

The file handle itself is the excluded persistence interface (spec §1, §6);
the model captures the byte string `serde_json::to_writer` writes for
`RainbowTable { table }` — `\x7b"table":\x7b"k":"v",...\x7d\x7d`, compact, with
serde_json's string escaping — and the parse `serde_json::from_reader`
performs on that byte string (`none` models the `Err` on corrupt data). -/
/-- serde_json's escape of one string byte: `\"` and `\\`, short escapes
for backspace/tab/newline/form feed/carriage return, `\u00XX` (lowercase
hex) for the other control bytes, the byte itself otherwise. -/
def escByte (b : Nat) : List Nat :=
  if b = 34 then [92, 34]
  else if b = 92 then [92, 92]
  else if b = 8 then [92, 98]
  else if b = 9 then [92, 116]
  else if b = 10 then [92, 110]
  else if b = 12 then [92, 102]
  else if b = 13 then [92, 114]
  else if b < 32 then [92, 117, 48, 48, hexDigit (b / 16), hexDigit (b % 16)]
  else [b]

/-- The escaped body of a JSON string literal. -/
def encStringBody : List Nat → List Nat
  | [] => []
  | b :: rest => escByte b ++ encStringBody rest

/-- A JSON string literal: quote, escaped bytes, quote. -/
def encString (s : List Nat) : List Nat := 34 :: (encStringBody s ++ [34])

/-- The comma-separated members of the inner JSON object, in table order. -/
def encMembers : Table → List Nat
  | [] => []
  | [(k, v)] => encString k ++ (58 :: encString v)
  | (k, v) :: rest => (encString k ++ (58 :: encString v)) ++ (44 :: encMembers rest)

/-- `save_rainbow_table` (src/main.rs 70–74): the bytes
`serde_json::to_writer` writes (123/125 are the braces, 58 the colon). -/
def save_rainbow_table (t : Table) : List Nat :=
  123 :: (encString (strBytes "table") ++ (58 :: 123 :: (encMembers t ++ [125, 125])))

/-- Parse a JSON string body up to the closing quote, returning the decoded
bytes and the remaining input. -/
def parseStringBody : List Nat → Option (List Nat × List Nat)
  | [] => none
  | b :: rest =>
    if b = 34 then some ([], rest)
    else if b = 92 then
      match rest with
      | [] => none
      | e :: rest2 =>
        if e = 34 then (parseStringBody rest2).map fun sr => (34 :: sr.1, sr.2)
        else if e = 92 then (parseStringBody rest2).map fun sr => (92 :: sr.1, sr.2)
        else if e = 47 then (parseStringBody rest2).map fun sr => (47 :: sr.1, sr.2)
        else if e = 98 then (parseStringBody rest2).map fun sr => (8 :: sr.1, sr.2)
        else if e = 116 then (parseStringBody rest2).map fun sr => (9 :: sr.1, sr.2)
        else if e = 110 then (parseStringBody rest2).map fun sr => (10 :: sr.1, sr.2)
        else if e = 102 then (parseStringBody rest2).map fun sr => (12 :: sr.1, sr.2)
        else if e = 114 then (parseStringBody rest2).map fun sr => (13 :: sr.1, sr.2)
        else if e = 117 then
          match rest2 with
          | h1 :: h2 :: h3 :: h4 :: rest3 =>
            match hexVal h1, hexVal h2, hexVal h3, hexVal h4 with
            | some v1, some v2, some v3, some v4 =>
              (parseStringBody rest3).map fun sr =>
                ((((v1 * 16 + v2) * 16 + v3) * 16 + v4) :: sr.1, sr.2)
            | _, _, _, _ => none
          | _ => none
        else none
    else if b < 32 then none
    else (parseStringBody rest).map fun sr => (b :: sr.1, sr.2)

/-- Parse a JSON string literal (opening quote included). -/
def parseString (input : List Nat) : Option (List Nat × List Nat) :=
  match input with
  | [] => none
  | b :: rest => if b = 34 then parseStringBody rest else none

/-- Parse one or more `"k":"v"` members separated by commas; stops before
the byte that follows the last member. -/
def parseMembers : Nat → List Nat → Option (Table × List Nat)
  | 0, _ => none
  | f+1, input =>
    match parseString input with
    | none => none
    | some (k, rest1) =>
      match rest1 with
      | [] => none
      | c :: rest2 =>
        if c = 58 then
          match parseString rest2 with
          | none => none
          | some (v, rest3) =>
            match rest3 with
            | [] => none
            | d :: rest4 =>
              if d = 44 then (parseMembers f rest4).map fun tr => ((k, v) :: tr.1, tr.2)
              else some ([(k, v)], d :: rest4)
        else none

/-- Parse the body of the inner object (the opening brace already
consumed), up to and including its closing brace. -/
def parseObjectBody (fuel : Nat) (input : List Nat) : Option (Table × List Nat) :=
  match input with
  | [] => none
  | b :: rest =>
    if b = 125 then some ([], rest)
    else
      match parseMembers fuel (b :: rest) with
      | some (tb, 125 :: rest2) => some (tb, rest2)
      | _ => none

/-- `load_rainbow_table` (src/main.rs 77–81): parse the persisted bytes
back into the table; `none` models the propagated `serde_json` error. -/
def load_rainbow_table (bs : List Nat) : Option Table :=
  match bs with
  | [] => none
  | b :: rest =>
    if b = 123 then
      match parseString rest with
      | some (key, c1 :: c2 :: rest2) =>
        if key = strBytes "table" ∧ c1 = 58 ∧ c2 = 123 then
          match parseObjectBody rest2.length rest2 with
          | some (tb, rest3) => if rest3 = [125] then some tb else none
          | none => none
        else none
      | _ => none
    else none

theorem chainFrom_succ_right (t : List Nat) (start k : Nat) :
    chainFrom t start (k + 1) = reduceD (hash (chainFrom t start k)) (start + k) := by
  induction k generalizing t start with
  | zero => simp only [chainFrom, Nat.add_zero]
  | succ k ih =>
    conv_lhs => rw [chainFrom]
    conv_rhs => rw [chainFrom]
    rw [ih]
    have h : start + 1 + k = start + (k + 1) := by omega
    rw [h]

theorem chainFrom_add (t : List Nat) (start a b : Nat) :
    chainFrom t start (a + b) = chainFrom (chainFrom t start a) (start + a) b := by
  induction b with
  | zero => rfl
  | succ b ih =>
    rw [show a + (b + 1) = (a + b) + 1 by omega, chainFrom_succ_right,
        chainFrom_succ_right, ih]
    have h : start + (a + b) = start + a + b := by omega
    rw [h]

theorem chainText_eq_chainFrom (s : List Nat) (n : Nat) :
    chainText s n = chainFrom s 0 n := by
  induction n with
  | zero => rfl
  | succ n ih => rw [chainText, chainFrom_succ_right, ih, Nat.zero_add]

/-! ## Structural lemmas about the embedding -/
theorem wordBytes_lt (w : Nat) : ∀ b ∈ wordBytes w, b < 256 := by
  intro b hb
  simp only [wordBytes, List.mem_cons, List.not_mem_nil, or_false] at hb
  rcases hb with rfl | rfl | rfl | rfl <;> exact Nat.mod_lt _ (by norm_num)

theorem hash_length (m : List Nat) : (hash m).length = 20 := by
  simp [hash, wordBytes]

theorem hash_lt (m : List Nat) : ∀ b ∈ hash m, b < 256 := by
  intro b hb
  simp only [hash, List.mem_append] at hb
  rcases hb with ((((h | h) | h) | h) | h) <;> exact wordBytes_lt _ b h

theorem reduce_eq_some (d : List Nat) (p : Nat) (h : 8 ≤ d.length) :
    reduce d p = some (reduceD d p) := by
  rcases d with _ | ⟨b0, _ | ⟨b1, _ | ⟨b2, _ | ⟨b3, _ | ⟨b4, _ | ⟨b5, _ | ⟨b6, _ | ⟨b7, rest⟩⟩⟩⟩⟩⟩⟩⟩ <;>
    first
      | rfl
      | simp at h

theorem reduceDigits_length (len num : Nat) : (reduceDigits len num).length = len := by
  induction len generalizing num with
  | zero => rfl
  | succ len ih => simp [reduceDigits, ih]

theorem charsetByte_mem : ∀ idx, idx < 62 → charsetByte idx ∈ charset := by decide

theorem reduceDigits_mem (len num : Nat) : ∀ c ∈ reduceDigits len num, c ∈ charset := by
  induction len generalizing num with
  | zero => intro c hc; simp [reduceDigits] at hc
  | succ len ih =>
    intro c hc
    rcases List.mem_cons.mp hc with rfl | hc
    · exact charsetByte_mem _ (Nat.mod_lt _ (by norm_num))
    · exact ih _ c hc

theorem specAlphabet_eq_charset : specAlphabet = charset := by decide

theorem specDigits_eq_reduceDigits (len num : Nat) :
    specDigits len num = reduceDigits len num := by
  induction len generalizing num with
  | zero => rfl
  | succ len ih =>
    simp [specDigits, reduceDigits, ih, charsetByte, specAlphabet_eq_charset]

/-- **C2.**  For every digest of at least 8 bytes and every position `p`,
`reduce` computes exactly the spec's number: the big-endian u32 of bytes
0–3 XOR'd with `p` as u32, plus (wrapping modulo 2^32) the big-endian u32
of bytes 4–7; then, for the computed output length, it repeatedly appends
the character at index `num mod 62` of the fixed A–Z a–z 0–9 alphabet and
divides `num` by 62. -/
theorem c2_reduce_matches_spec (d : List Nat) (p : Nat) (h : 8 ≤ d.length) :
    reduce d p = some (reduceSpec d p) := by
  rcases d with _ | ⟨b0, _ | ⟨b1, _ | ⟨b2, _ | ⟨b3, _ | ⟨b4, _ | ⟨b5, _ | ⟨b6, _ | ⟨b7, rest⟩⟩⟩⟩⟩⟩⟩⟩
  all_goals try (simp at h)
  have hnum : ((beU32 (List.take 4 (b0::b1::b2::b3::b4::b5::b6::b7::rest)) ^^^ (p % M32)) +
      beU32 (List.take 4 (List.drop 4 (b0::b1::b2::b3::b4::b5::b6::b7::rest)))) % M32
      = reduceNum b0 b1 b2 b3 b4 b5 b6 b7 p := by
    simp [beU32, reduceNum, Nat.shiftLeft_eq]
    ring_nf
  simp only [reduceSpec, hnum, specDigits_eq_reduceDigits]
  rfl

/-- Witness for C2 at the concrete digest `hash "a"` and position 0. -/
theorem c2_witness :
    8 ≤ (hash (strBytes "a")).length ∧
      reduce (hash (strBytes "a")) 0 = some (reduceSpec (hash (strBytes "a")) 0) :=
  ⟨by rw [hash_length]; norm_num,
   c2_reduce_matches_spec (hash (strBytes "a")) 0 (by rw [hash_length]; norm_num)⟩

theorem chainLoop_succ (s : List Nat) (n : Nat) :
    chainLoop s (n + 1) = reduceD (hash (chainLoop s n)) n := by
  simp [chainLoop, List.range_succ]

/-- **C3.**  The chain construction of `generate_rainbow_table` (the `for j
in 0..CHAIN_LENGTH` loop, then `hash`) is exactly the spec's recurrence:
`text₀ = S`, `textⱼ₊₁ = reduce(digest(textⱼ), j)` for positions `0..N-1`,
endpoint `digest(text_N)`.  Both sides are total Lean functions, so the
construction is deterministic and has no failure mode. -/
theorem c3_chain_construction (s : List Nat) (n : Nat) :
    chainLoop s n = chainText s n ∧ endpointOf s n = hash (chainText s n) := by
  have h : chainLoop s n = chainText s n := by
    induction n with
    | zero => rfl
    | succ n ih => rw [chainLoop_succ, ih, chainText]
  exact ⟨h, by rw [endpointOf, h]⟩

/-- **C5.**  For every digest of at least 8 bytes and every position,
`reduce` succeeds (no out-of-bounds access) and returns a string of length
6, 7 or 8 all of whose characters come from the fixed 62-symbol
alphabet. -/
theorem c5_reduce_safe (d : List Nat) (p : Nat) (h : 8 ≤ d.length) :
    ∃ r, reduce d p = some r ∧ (r.length = 6 ∨ r.length = 7 ∨ r.length = 8) ∧
      ∀ c ∈ r, c ∈ charset := by
  rcases d with _ | ⟨b0, _ | ⟨b1, _ | ⟨b2, _ | ⟨b3, _ | ⟨b4, _ | ⟨b5, _ | ⟨b6, _ | ⟨b7, rest⟩⟩⟩⟩⟩⟩⟩⟩
  all_goals try (simp at h)
  refine ⟨_, rfl, ?_, reduceDigits_mem _ _⟩
  rw [reduceDigits_length]
  omega

/-- Witness for C5 at the concrete digest `hash "a"` and position 0. -/
theorem c5_witness :
    8 ≤ (hash (strBytes "a")).length ∧
      ∃ r, reduce (hash (strBytes "a")) 0 = some r ∧
        (r.length = 6 ∨ r.length = 7 ∨ r.length = 8) ∧ ∀ c ∈ r, c ∈ charset :=
  ⟨by rw [hash_length]; norm_num,
   c5_reduce_safe (hash (strBytes "a")) 0 (by rw [hash_length]; norm_num)⟩

theorem lookup_insert (t : Table) (k v q : List Nat) :
    lookupKV (insertKV t k v) q = if k = q then some v else lookupKV t q := by
  induction t with
  | nil => simp [insertKV, lookupKV]
  | cons hd rest ih =>
    obtain ⟨k0, v0⟩ := hd
    by_cases h0 : k0 = k
    · subst h0
      simp only [insertKV, if_pos rfl, lookupKV]
      by_cases hq : k0 = q
      · simp [hq]
      · simp [hq, lookupKV]
    · simp only [insertKV, if_neg h0, lookupKV, ih]
      by_cases hq : k0 = q
      · subst hq
        have : ¬ k0 = k := h0
        simp [show ¬ (k = k0) from fun h => this h.symm]
      · simp [hq]

theorem lookup_generate_aux (n : Nat) (seeds : List (List Nat)) (t : Table) (k : List Nat) :
    lookupKV (seeds.foldl (fun tbl s => insertKV tbl (hexEncode (endpointOf s n)) s) t) k
      = seeds.foldl
          (fun acc s => if hexEncode (endpointOf s n) = k then some s else acc)
          (lookupKV t k) := by
  induction seeds generalizing t with
  | nil => rfl
  | cons s ss ih =>
    simp only [List.foldl_cons, ih, lookup_insert]

theorem lookup_generate (seeds : List (List Nat)) (n : Nat) (k : List Nat) :
    lookupKV (generate_rainbow_table seeds n) k = lastSeedFor seeds n k := by
  have h := lookup_generate_aux n seeds [] k
  simpa [generate_rainbow_table, lastSeedFor, lookupKV] using h

theorem lastSeedFor_eq_some (seeds : List (List Nat)) (n : Nat) (S : List Nat)
    (hmem : S ∈ seeds)
    (hall : ∀ s ∈ seeds, hexEncode (endpointOf s n) = hexEncode (endpointOf S n) → s = S) :
    lastSeedFor seeds n (hexEncode (endpointOf S n)) = some S := by
  have aux : ∀ (l : List (List Nat)) (acc : Option (List Nat)),
      (∀ s ∈ l, hexEncode (endpointOf s n) = hexEncode (endpointOf S n) → s = S) →
      (S ∈ l ∨ acc = some S) →
      l.foldl (fun acc s => if hexEncode (endpointOf s n) = hexEncode (endpointOf S n)
        then some s else acc) acc = some S := by
    intro l
    induction l with
    | nil =>
      intro acc _ hin
      rcases hin with h | h
      · exact absurd h (List.not_mem_nil S)
      · exact h
    | cons s ss ih =>
      intro acc hl hin
      simp only [List.foldl_cons]
      by_cases hk : hexEncode (endpointOf s n) = hexEncode (endpointOf S n)
      · have hs : s = S := hl s (List.mem_cons_self s ss) hk
        exact ih _ (fun x hx => hl x (List.mem_cons_of_mem s hx))
          (Or.inr (by rw [if_pos hk, hs]))
      · rw [if_neg hk]
        refine ih acc (fun x hx => hl x (List.mem_cons_of_mem s hx)) ?_
        rcases hin with h | h
        · rcases List.mem_cons.mp h with rfl | h2
          · exact absurd rfl hk
          · exact Or.inl h2
        · exact Or.inr h
  exact aux seeds none hall (Or.inl hmem)

/-! ## Hex-encoding injectivity on byte lists -/
theorem hexDigit_inj : ∀ x, x < 16 → ∀ y, y < 16 → hexDigit x = hexDigit y → x = y := by
  decide

theorem hexEncode_inj (a : List Nat) : ∀ (b : List Nat),
    (∀ x ∈ a, x < 256) → (∀ x ∈ b, x < 256) → hexEncode a = hexEncode b → a = b := by
  induction a with
  | nil =>
    intro b _ _ h
    cases b with
    | nil => rfl
    | cons y ys => simp [hexEncode] at h
  | cons x xs ih =>
    intro b ha hb h
    cases b with
    | nil => simp [hexEncode] at h
    | cons y ys =>
      simp only [hexEncode, List.cons.injEq] at h
      obtain ⟨h1, h2, h3⟩ := h
      have hx : x < 256 := ha x (List.mem_cons_self x xs)
      have hy : y < 256 := hb y (List.mem_cons_self y ys)
      have e1 : x / 16 = y / 16 :=
        hexDigit_inj _ (by omega) _ (by omega) h1
      have e2 : x % 16 = y % 16 :=
        hexDigit_inj _ (by omega) _ (by omega) h2
      have exy : x = y := by omega
      rw [exy, ih ys (fun z hz => ha z (List.mem_cons_of_mem x hz))
        (fun z hz => hb z (List.mem_cons_of_mem y hz)) h3]

/-- **C6.**  Table construction processes the seeds in order, inserting
`hex(endpoint) → seed` for each; an empty seed sequence yields an empty
table, and when several seeds share an endpoint key the
later-processed seed's value is the one the table holds (last write
wins), as the `lastSeedFor` characterization of every lookup states. -/
theorem c6_table_construction (seeds : List (List Nat)) (n : Nat) (k : List Nat) :
    generate_rainbow_table [] n = [] ∧
      lookupKV (generate_rainbow_table seeds n) k = lastSeedFor seeds n k :=
  ⟨rfl, lookup_generate seeds n k⟩

/-- **C1 (the code crashes instead).**  Evaluating `crack_hash` at malformed
targets: a non-hex target (`"zz"`) makes the `expect` on `hex::decode`
panic, and a wrong-length but valid hex target (`"abcd"`, two bytes) is not
rejected at all — the search begins and panics on out-of-bounds digest
indexing inside `reduce`. -/
theorem c1_malformed_target_crashes :
    crack_hash [] (strBytes "zz") CHAIN_LENGTH = .panic .invalidHash ∧
      crack_hash [] (strBytes "abcd") CHAIN_LENGTH = .panic .indexOutOfBounds := by
  exact ⟨by decide, by decide⟩

/-! ## The casper4 golden chain (claim C4), evaluated 10 steps at a time -/
theorem chainFrom_extend {c v w : List Nat} {m k : Nat} (h1 : chainFrom c 0 m = v)
    (h2 : chainFrom v m k = w) : chainFrom c 0 (m + k) = w := by
  rw [chainFrom_add, h1, Nat.zero_add, h2]

-- chunk lemmas for the casper4 300-step chain (10 steps each)
set_option maxRecDepth 1000000 in
set_option maxHeartbeats 1000000 in
theorem casperChunk00 : chainFrom (strBytes "casper4") 0 10 = strBytes "wSiCDAAA" := by
  decide

set_option maxRecDepth 1000000 in
set_option maxHeartbeats 1000000 in
theorem casperChunk01 : chainFrom (strBytes "wSiCDAAA") 10 10 = strBytes "rh3u4A" := by
  decide

set_option maxRecDepth 1000000 in
set_option maxHeartbeats 1000000 in
theorem casperChunk02 : chainFrom (strBytes "rh3u4A") 20 10 = strBytes "jJ0V8BAA" := by
  decide

set_option maxRecDepth 1000000 in
set_option maxHeartbeats 1000000 in
theorem casperChunk03 : chainFrom (strBytes "jJ0V8BAA") 30 10 = strBytes "Wqz8AE" := by
  decide

set_option maxRecDepth 1000000 in
set_option maxHeartbeats 1000000 in
theorem casperChunk04 : chainFrom (strBytes "Wqz8AE") 40 10 = strBytes "iulDcBA" := by
  decide

set_option maxRecDepth 1000000 in
set_option maxHeartbeats 1000000 in
theorem casperChunk05 : chainFrom (strBytes "iulDcBA") 50 10 = strBytes "fnkWpEA" := by
  decide

set_option maxRecDepth 1000000 in
set_option maxHeartbeats 1000000 in
theorem casperChunk06 : chainFrom (strBytes "fnkWpEA") 60 10 = strBytes "W27QvAA" := by
  decide

set_option maxRecDepth 1000000 in
set_option maxHeartbeats 1000000 in
theorem casperChunk07 : chainFrom (strBytes "W27QvAA") 70 10 = strBytes "pLoRgB" := by
  decide

set_option maxRecDepth 1000000 in
set_option maxHeartbeats 1000000 in
theorem casperChunk08 : chainFrom (strBytes "pLoRgB") 80 10 = strBytes "gTVGXD" := by
  decide

set_option maxRecDepth 1000000 in
set_option maxHeartbeats 1000000 in
theorem casperChunk09 : chainFrom (strBytes "gTVGXD") 90 10 = strBytes "1S7h8AA" := by
  decide

set_option maxRecDepth 1000000 in
set_option maxHeartbeats 1000000 in
theorem casperChunk10 : chainFrom (strBytes "1S7h8AA") 100 10 = strBytes "9vJZ5B" := by
  decide

set_option maxRecDepth 1000000 in
set_option maxHeartbeats 1000000 in
theorem casperChunk11 : chainFrom (strBytes "9vJZ5B") 110 10 = strBytes "Wi0rBAA" := by
  decide

set_option maxRecDepth 1000000 in
set_option maxHeartbeats 1000000 in
theorem casperChunk12 : chainFrom (strBytes "Wi0rBAA") 120 10 = strBytes "Lu4LrAAA" := by
  decide

set_option maxRecDepth 1000000 in
set_option maxHeartbeats 1000000 in
theorem casperChunk13 : chainFrom (strBytes "Lu4LrAAA") 130 10 = strBytes "gkd3jBA" := by
  decide

set_option maxRecDepth 1000000 in
set_option maxHeartbeats 1000000 in
theorem casperChunk14 : chainFrom (strBytes "gkd3jBA") 140 10 = strBytes "0wttUA" := by
  decide

set_option maxRecDepth 1000000 in
set_option maxHeartbeats 1000000 in
theorem casperChunk15 : chainFrom (strBytes "0wttUA") 150 10 = strBytes "HcAZJBA" := by
  decide

set_option maxRecDepth 1000000 in
set_option maxHeartbeats 1000000 in
theorem casperChunk16 : chainFrom (strBytes "HcAZJBA") 160 10 = strBytes "tqhFOCA" := by
  decide

set_option maxRecDepth 1000000 in
set_option maxHeartbeats 1000000 in
theorem casperChunk17 : chainFrom (strBytes "tqhFOCA") 170 10 = strBytes "5vUO9DAA" := by
  decide

set_option maxRecDepth 1000000 in
set_option maxHeartbeats 1000000 in
theorem casperChunk18 : chainFrom (strBytes "5vUO9DAA") 180 10 = strBytes "3jTnLBA" := by
  decide

set_option maxRecDepth 1000000 in
set_option maxHeartbeats 1000000 in
theorem casperChunk19 : chainFrom (strBytes "3jTnLBA") 190 10 = strBytes "ZqaLRD" := by
  decide

set_option maxRecDepth 1000000 in
set_option maxHeartbeats 1000000 in
theorem casperChunk20 : chainFrom (strBytes "ZqaLRD") 200 10 = strBytes "LWqcWAA" := by
  decide

set_option maxRecDepth 1000000 in
set_option maxHeartbeats 1000000 in
theorem casperChunk21 : chainFrom (strBytes "LWqcWAA") 210 10 = strBytes "qjD8EDAA" := by
  decide

set_option maxRecDepth 1000000 in
set_option maxHeartbeats 1000000 in
theorem casperChunk22 : chainFrom (strBytes "qjD8EDAA") 220 10 = strBytes "zSPRYAA" := by
  decide

set_option maxRecDepth 1000000 in
set_option maxHeartbeats 1000000 in
theorem casperChunk23 : chainFrom (strBytes "zSPRYAA") 230 10 = strBytes "ldCgnC" := by
  decide

set_option maxRecDepth 1000000 in
set_option maxHeartbeats 1000000 in
theorem casperChunk24 : chainFrom (strBytes "ldCgnC") 240 10 = strBytes "XNOVnBAA" := by
  decide

set_option maxRecDepth 1000000 in
set_option maxHeartbeats 1000000 in
theorem casperChunk25 : chainFrom (strBytes "XNOVnBAA") 250 10 = strBytes "PpNt5BA" := by
  decide

set_option maxRecDepth 1000000 in
set_option maxHeartbeats 1000000 in
theorem casperChunk26 : chainFrom (strBytes "PpNt5BA") 260 10 = strBytes "6gKW3CA" := by
  decide

set_option maxRecDepth 1000000 in
set_option maxHeartbeats 1000000 in
theorem casperChunk27 : chainFrom (strBytes "6gKW3CA") 270 10 = strBytes "RXQ5bAA" := by
  decide

set_option maxRecDepth 1000000 in
set_option maxHeartbeats 1000000 in
theorem casperChunk28 : chainFrom (strBytes "RXQ5bAA") 280 10 = strBytes "1UnLpD" := by
  decide

set_option maxRecDepth 1000000 in
set_option maxHeartbeats 1000000 in
theorem casperChunk29 : chainFrom (strBytes "1UnLpD") 290 10 = strBytes "QeckbAAA" := by
  decide

set_option maxRecDepth 1000000 in
set_option maxHeartbeats 2000000 in
theorem casperChain300 : chainFrom (strBytes "casper4") 0 300 = strBytes "QeckbAAA" := by
  have h10 : chainFrom (strBytes "casper4") 0 10 = strBytes "wSiCDAAA" := casperChunk00
  have h20 : chainFrom (strBytes "casper4") 0 20 = strBytes "rh3u4A" := chainFrom_extend h10 casperChunk01
  have h30 : chainFrom (strBytes "casper4") 0 30 = strBytes "jJ0V8BAA" := chainFrom_extend h20 casperChunk02
  have h40 : chainFrom (strBytes "casper4") 0 40 = strBytes "Wqz8AE" := chainFrom_extend h30 casperChunk03
  have h50 : chainFrom (strBytes "casper4") 0 50 = strBytes "iulDcBA" := chainFrom_extend h40 casperChunk04
  have h60 : chainFrom (strBytes "casper4") 0 60 = strBytes "fnkWpEA" := chainFrom_extend h50 casperChunk05
  have h70 : chainFrom (strBytes "casper4") 0 70 = strBytes "W27QvAA" := chainFrom_extend h60 casperChunk06
  have h80 : chainFrom (strBytes "casper4") 0 80 = strBytes "pLoRgB" := chainFrom_extend h70 casperChunk07
  have h90 : chainFrom (strBytes "casper4") 0 90 = strBytes "gTVGXD" := chainFrom_extend h80 casperChunk08
  have h100 : chainFrom (strBytes "casper4") 0 100 = strBytes "1S7h8AA" := chainFrom_extend h90 casperChunk09
  have h110 : chainFrom (strBytes "casper4") 0 110 = strBytes "9vJZ5B" := chainFrom_extend h100 casperChunk10
  have h120 : chainFrom (strBytes "casper4") 0 120 = strBytes "Wi0rBAA" := chainFrom_extend h110 casperChunk11
  have h130 : chainFrom (strBytes "casper4") 0 130 = strBytes "Lu4LrAAA" := chainFrom_extend h120 casperChunk12
  have h140 : chainFrom (strBytes "casper4") 0 140 = strBytes "gkd3jBA" := chainFrom_extend h130 casperChunk13
  have h150 : chainFrom (strBytes "casper4") 0 150 = strBytes "0wttUA" := chainFrom_extend h140 casperChunk14
  have h160 : chainFrom (strBytes "casper4") 0 160 = strBytes "HcAZJBA" := chainFrom_extend h150 casperChunk15
  have h170 : chainFrom (strBytes "casper4") 0 170 = strBytes "tqhFOCA" := chainFrom_extend h160 casperChunk16
  have h180 : chainFrom (strBytes "casper4") 0 180 = strBytes "5vUO9DAA" := chainFrom_extend h170 casperChunk17
  have h190 : chainFrom (strBytes "casper4") 0 190 = strBytes "3jTnLBA" := chainFrom_extend h180 casperChunk18
  have h200 : chainFrom (strBytes "casper4") 0 200 = strBytes "ZqaLRD" := chainFrom_extend h190 casperChunk19
  have h210 : chainFrom (strBytes "casper4") 0 210 = strBytes "LWqcWAA" := chainFrom_extend h200 casperChunk20
  have h220 : chainFrom (strBytes "casper4") 0 220 = strBytes "qjD8EDAA" := chainFrom_extend h210 casperChunk21
  have h230 : chainFrom (strBytes "casper4") 0 230 = strBytes "zSPRYAA" := chainFrom_extend h220 casperChunk22
  have h240 : chainFrom (strBytes "casper4") 0 240 = strBytes "ldCgnC" := chainFrom_extend h230 casperChunk23
  have h250 : chainFrom (strBytes "casper4") 0 250 = strBytes "XNOVnBAA" := chainFrom_extend h240 casperChunk24
  have h260 : chainFrom (strBytes "casper4") 0 260 = strBytes "PpNt5BA" := chainFrom_extend h250 casperChunk25
  have h270 : chainFrom (strBytes "casper4") 0 270 = strBytes "6gKW3CA" := chainFrom_extend h260 casperChunk26
  have h280 : chainFrom (strBytes "casper4") 0 280 = strBytes "RXQ5bAA" := chainFrom_extend h270 casperChunk27
  have h290 : chainFrom (strBytes "casper4") 0 290 = strBytes "1UnLpD" := chainFrom_extend h280 casperChunk28
  have h300 : chainFrom (strBytes "casper4") 0 300 = strBytes "QeckbAAA" := chainFrom_extend h290 casperChunk29
  exact h300

set_option maxRecDepth 1000000 in
set_option maxHeartbeats 1000000 in
/-- **C4 (corrected), counterexample.**  Chaining `"casper4"` through the
program's 300 reduction/hash steps does *not* yield `"Vuvk5CAA"` (it
yields `"QeckbAAA"`; the source comment's `"Vuvk5CAA"` is the text after
the single first reduction step). -/
theorem c4_counterexample :
    chainText (strBytes "casper4") CHAIN_LENGTH ≠ strBytes "Vuvk5CAA" := by
  intro hEq
  have h := casperChain300
  rw [← chainText_eq_chainFrom] at h
  rw [show CHAIN_LENGTH = 300 from rfl, h] at hEq
  exact absurd hEq (by decide)

set_option maxRecDepth 1000000 in
set_option maxHeartbeats 1000000 in
/-- **C4 (amended).**  Chaining `"casper4"` through the 300 steps yields the
endpoint plaintext `"QeckbAAA"`; the value `"Vuvk5CAA"` is the chain text
after the first reduction step (`reduce(digest("casper4"), 0)`), and the
digest of `"Vuvk5CAA"` hex-encodes to
`"0da49c9a507b3a983d1804a675ae8cb9422746d7"`. -/
theorem c4_amended_golden_vector :
    chainText (strBytes "casper4") CHAIN_LENGTH = strBytes "QeckbAAA" ∧
      chainText (strBytes "casper4") 1 = strBytes "Vuvk5CAA" ∧
      hexEncode (hash (strBytes "Vuvk5CAA"))
        = strBytes "0da49c9a507b3a983d1804a675ae8cb9422746d7" := by
  refine ⟨?_, by decide, by decide⟩
  show chainText (strBytes "casper4") 300 = _
  rw [chainText_eq_chainFrom]
  exact casperChain300

set_option maxRecDepth 1000000 in
set_option maxHeartbeats 2000000 in
/-- **C7 (corrected), counterexample.**  The code does not abandon the outer
position after a false positive: with seeds `"b65153"` and `"s194661"`,
chain length 2, and target `digest("s194661")`, the inner loop at `i = 0`
hits the table at `j = 0` (a false positive whose replay fails), continues
with `j = 1` at the same `i`, and there finds `"s194661"` — so it returns a
result instead of the "not found for this i" the claim requires. -/
theorem c7_counterexample : ¬ abandonsFalsePositives := by
  intro hA
  have h := hA (generate_rainbow_table [strBytes "b65153", strBytes "s194661"] 2)
      (hash (strBytes "s194661")) 2 1 0 (hash (strBytes "s194661")) (strBytes "I5AFZCAA")
      (strBytes "b65153") (by decide) (by decide) (by decide)
  have h2 : crackInner (generate_rainbow_table [strBytes "b65153", strBytes "s194661"] 2)
      (hash (strBytes "s194661")) 2 (1 + 1) 0 (hash (strBytes "s194661"))
      = .found (strBytes "s194661") := by decide
  rw [h] at h2
  exact absurd h2 (by decide)

/-- **C7 (amended).**  When a table lookup hits but the replay from the
retrieved seed reproduces the target at no step, the hit is a false
positive and the cracker *continues the inner loop at the same outer
position `i`* with the next index `j + 1` and the updated digest
`hash(reduce(current, j))`, rather than abandoning `i`. -/
theorem c7_amended_continues_inner (tbl : Table) (target : List Nat) (n f j : Nat)
    (cur cand seed : List Nat) (hred : reduce cur j = some cand)
    (hlook : lookupKV tbl (hexEncode (hash cand)) = some seed)
    (hrep : replayAux target n 0 seed = none) :
    crackInner tbl target n (f + 1) j cur = crackInner tbl target n f (j + 1) (hash cand) := by
  simp only [crackInner, hred, hlook, hrep]

set_option maxRecDepth 1000000 in
set_option maxHeartbeats 2000000 in
/-- Witness for the amended C7 at the concrete false-positive scenario. -/
theorem c7_witness :
    reduce (hash (strBytes "s194661")) 0 = some (strBytes "I5AFZCAA") ∧
      lookupKV (generate_rainbow_table [strBytes "b65153", strBytes "s194661"] 2)
        (hexEncode (hash (strBytes "I5AFZCAA"))) = some (strBytes "b65153") ∧
      replayAux (hash (strBytes "s194661")) 2 0 (strBytes "b65153") = none ∧
      crackInner (generate_rainbow_table [strBytes "b65153", strBytes "s194661"] 2)
          (hash (strBytes "s194661")) 2 2 0 (hash (strBytes "s194661"))
        = crackInner (generate_rainbow_table [strBytes "b65153", strBytes "s194661"] 2)
            (hash (strBytes "s194661")) 2 1 1 (hash (strBytes "I5AFZCAA")) :=
  ⟨by decide, by decide, by decide,
   c7_amended_continues_inner
     (generate_rainbow_table [strBytes "b65153", strBytes "s194661"] 2)
     (hash (strBytes "s194661")) 2 1 0 (hash (strBytes "s194661")) (strBytes "I5AFZCAA")
     (strBytes "b65153") (by decide) (by decide) (by decide)⟩

/-! ## Helper lemmas for the cracker proofs (claims C8, C9) -/
theorem chainLoop_eq_chainText (s : List Nat) (n : Nat) : chainLoop s n = chainText s n := by
  induction n with
  | zero => rfl
  | succ n ih => rw [chainLoop_succ, ih, chainText]

theorem endpointOf_eq (s : List Nat) (n : Nat) : endpointOf s n = hash (chainText s n) := by
  rw [endpointOf, chainLoop_eq_chainText]

theorem lastSeedFor_mem (seeds : List (List Nat)) (n : Nat) (k v : List Nat) :
    lastSeedFor seeds n k = some v → v ∈ seeds := by
  have aux : ∀ (l : List (List Nat)) (acc : Option (List Nat)),
      l.foldl (fun acc s => if hexEncode (endpointOf s n) = k then some s else acc) acc
        = some v →
      v ∈ l ∨ acc = some v := by
    intro l
    induction l with
    | nil => intro acc h; exact Or.inr h
    | cons s ss ih =>
      intro acc h
      simp only [List.foldl_cons] at h
      rcases ih _ h with h2 | h2
      · exact Or.inl (List.mem_cons_of_mem s h2)
      · by_cases hk : hexEncode (endpointOf s n) = k
        · rw [if_pos hk] at h2
          obtain rfl := Option.some.inj h2
          exact Or.inl (List.mem_cons_self _ _)
        · rw [if_neg hk] at h2
          exact Or.inr h2
  intro h
  rcases aux seeds none h with h2 | h2
  · exact h2
  · cases h2

theorem tableValue_mem (seeds : List (List Nat)) (n : Nat) (k v : List Nat)
    (h : lookupKV (generate_rainbow_table seeds n) k = some v) : v ∈ seeds := by
  rw [lookup_generate] at h
  exact lastSeedFor_mem seeds n k v h

theorem replayAux_self (S : List Nat) (n : Nat) (hn : 1 ≤ n) :
    replayAux (hash S) n 0 S = some S := by
  obtain ⟨m, rfl⟩ : ∃ m, n = m + 1 := ⟨n - 1, by omega⟩
  rw [replayAux, if_pos rfl]

theorem replayAux_found (target : List Nat) :
    ∀ (f k : Nat) (pt p : List Nat), replayAux target f k pt = some p →
      hash p = target ∧ ∃ m, m < f ∧ p = chainFrom pt k m := by
  intro f
  induction f with
  | zero => intro k pt p h; simp [replayAux] at h
  | succ f ih =>
    intro k pt p h
    simp only [replayAux] at h
    split_ifs at h with he
    · obtain rfl := Option.some.inj h
      exact ⟨he, 0, by omega, rfl⟩
    · obtain ⟨h1, m, hm, rfl⟩ := ih (k + 1) (reduceD (hash pt) k) p h
      exact ⟨h1, m + 1, by omega, rfl⟩

theorem crackInner_no_panic (tbl : Table) (target : List Nat) (n : Nat) :
    ∀ (f j : Nat) (cur : List Nat), 8 ≤ cur.length →
      crackInner tbl target n f j cur = .notFound ∨
        ∃ p, crackInner tbl target n f j cur = .found p := by
  intro f
  induction f with
  | zero => intro j cur _; exact Or.inl rfl
  | succ f ih =>
    intro j cur h
    have hsome := reduce_eq_some cur j h
    rcases hl : lookupKV tbl (hexEncode (hash (reduceD cur j))) with _ | seed
    · simp only [crackInner, hsome, hl]
      exact ih (j + 1) (hash (reduceD cur j)) (by rw [hash_length]; omega)
    · rcases hrep : replayAux target n 0 seed with _ | p
      · simp only [crackInner, hsome, hl, hrep]
        exact ih (j + 1) (hash (reduceD cur j)) (by rw [hash_length]; omega)
      · simp only [crackInner, hsome, hl, hrep]
        exact Or.inr ⟨p, rfl⟩

theorem crackInner_found (tbl : Table) (target : List Nat) (n : Nat) :
    ∀ (f j : Nat) (cur p : List Nat), crackInner tbl target n f j cur = .found p →
      hash p = target ∧
        ∃ seed k', lookupKV tbl k' = some seed ∧ ∃ m, m < n ∧ p = chainText seed m := by
  intro f
  induction f with
  | zero => intro j cur p h; cases h
  | succ f ih =>
    intro j cur p h
    rcases hr : reduce cur j with _ | cand
    · simp only [crackInner, hr] at h
      cases h
    · rcases hl : lookupKV tbl (hexEncode (hash cand)) with _ | seed
      · simp only [crackInner, hr, hl] at h
        exact ih (j + 1) (hash cand) p h
      · rcases hrep : replayAux target n 0 seed with _ | q
        · simp only [crackInner, hr, hl, hrep] at h
          exact ih (j + 1) (hash cand) p h
        · simp only [crackInner, hr, hl, hrep] at h
          obtain rfl : q = p := by cases h; rfl
          obtain ⟨h1, m, hm, rfl⟩ := replayAux_found target n 0 seed q hrep
          exact ⟨h1, seed, hexEncode (hash cand), hl,
            m, hm, (chainText_eq_chainFrom seed m).symm ▸ rfl⟩

theorem crackOuter_found (tbl : Table) (target : List Nat) (n : Nat) :
    ∀ (fo : Nat) (p : List Nat), crackOuter tbl target n fo = .found p →
      hash p = target ∧
        ∃ seed k', lookupKV tbl k' = some seed ∧ ∃ m, m < n ∧ p = chainText seed m := by
  intro fo
  induction fo with
  | zero => intro p h; cases h
  | succ f ih =>
    intro p h
    rcases hi : crackInner tbl target n (n - f) f target with p' | pt | _
    · simp only [crackOuter, hi] at h
      cases h
    · simp only [crackOuter, hi] at h
      obtain rfl : pt = p := by cases h; rfl
      exact crackInner_found tbl target n (n - f) f target pt hi
    · simp only [crackOuter, hi] at h
      exact ih p h

theorem crackInner_zero_start (tbl : Table) (S : List Nat) (n : Nat)
    (hlook : lookupKV tbl (hexEncode (hash (chainText S n))) = some S) :
    ∀ (f j : Nat), f + j = n → j < n →
      ∃ p, crackInner tbl (hash S) n f j (hash (chainText S j)) = .found p := by
  intro f
  induction f with
  | zero => intro j hfj hj; omega
  | succ f ih =>
    intro j hfj hj
    have hsome := reduce_eq_some (hash (chainText S j)) j (by rw [hash_length]; omega)
    have hc : reduceD (hash (chainText S j)) j = chainText S (j + 1) := rfl
    by_cases hjn : j + 1 = n
    · refine ⟨S, ?_⟩
      simp only [crackInner, hsome, hc, hjn, hlook, replayAux_self S n (by omega)]
    · rcases hl : lookupKV tbl (hexEncode (hash (chainText S (j + 1)))) with _ | seed
      · obtain ⟨p, hp⟩ := ih (j + 1) (by omega) (by omega)
        refine ⟨p, ?_⟩
        simp only [crackInner, hsome, hc, hl]
        exact hp
      · rcases hrep : replayAux (hash S) n 0 seed with _ | q
        · obtain ⟨p, hp⟩ := ih (j + 1) (by omega) (by omega)
          refine ⟨p, ?_⟩
          simp only [crackInner, hsome, hc, hl, hrep]
          exact hp
        · refine ⟨q, ?_⟩
          simp only [crackInner, hsome, hc, hl, hrep]

theorem crackOuter_succeeds (tbl : Table) (S : List Nat) (n : Nat) (hn : 0 < n)
    (hlook : lookupKV tbl (hexEncode (hash (chainText S n))) = some S) :
    ∀ fo, 0 < fo → fo ≤ n → ∃ p, crackOuter tbl (hash S) n fo = .found p := by
  intro fo
  induction fo with
  | zero => intro h _; omega
  | succ f ih =>
    intro _ hfn
    rcases hi : crackInner tbl (hash S) n (n - f) f (hash S) with p' | pt | _
    · rcases crackInner_no_panic tbl (hash S) n (n - f) f (hash S)
        (by rw [hash_length]; omega) with h | ⟨q, h⟩ <;> rw [h] at hi <;> cases hi
    · exact ⟨pt, by simp only [crackOuter, hi]⟩
    · by_cases hf : f = 0
      · subst hf
        rw [Nat.sub_zero] at hi
        obtain ⟨p, hp⟩ := crackInner_zero_start tbl S n hlook n 0 (by omega) hn
        rw [show chainText S 0 = S from rfl] at hp
        rw [hp] at hi
        cases hi
      · obtain ⟨p, hp⟩ := ih (by omega) (by omega)
        exact ⟨p, by simp only [crackOuter, hi]; exact hp⟩

theorem hexVal_hexDigit : ∀ v, v < 16 → hexVal (hexDigit v) = some v := by decide

theorem hexDecode_encode (bs : List Nat) (h : ∀ b ∈ bs, b < 256) :
    hexDecode (hexEncode bs) = some bs := by
  induction bs with
  | nil => rfl
  | cons b rest ih =>
    have hb : b < 256 := h b (List.mem_cons_self _ _)
    simp only [hexEncode, hexDecode,
      hexVal_hexDigit (b / 16) (by omega), hexVal_hexDigit (b % 16) (by omega),
      ih (fun x hx => h x (List.mem_cons_of_mem b hx))]
    have : 16 * (b / 16) + b % 16 = b := by omega
    rw [this]

/-- **C8.**  For every chain length `n > 0`, seed list, and seed `S` whose
chain endpoint collides with no other seed's endpoint in the constructed
table — and whose target digest `digest(S)` is reproduced by no other chain
text of the table's chains (no digest collision, spec §4.1's one-way-digest
reading) — `crack` on `digest(S)` returns exactly `S`. -/
theorem c8_crack_finds_uncollided_seed (seeds : List (List Nat)) (S : List Nat) (n : Nat)
    (hn : 0 < n) (hmem : S ∈ seeds)
    (huniq : ∀ s' ∈ seeds, endpointOf s' n = endpointOf S n → s' = S)
    (hpre : ∀ s' ∈ seeds, ∀ k, k < n → hash (chainText s' k) = hash S → chainText s' k = S) :
    crackBytes (generate_rainbow_table seeds n) (hash S) n = .found S := by
  have hb : ∀ (t : List Nat), ∀ x ∈ endpointOf t n, x < 256 := by
    intro t x hx
    rw [endpointOf] at hx
    exact hash_lt _ x hx
  have hhex : ∀ s' ∈ seeds,
      hexEncode (endpointOf s' n) = hexEncode (endpointOf S n) → s' = S := by
    intro s' hs' h
    exact huniq s' hs' (hexEncode_inj _ _ (hb s') (hb S) h)
  have hlook : lookupKV (generate_rainbow_table seeds n) (hexEncode (endpointOf S n))
      = some S := by
    rw [lookup_generate]
    exact lastSeedFor_eq_some seeds n S hmem hhex
  rw [endpointOf_eq] at hlook
  obtain ⟨p, hp⟩ := crackOuter_succeeds (generate_rainbow_table seeds n) S n hn hlook n hn le_rfl
  obtain ⟨h1, seed, k', hk', m, hm, rfl⟩ :=
    crackOuter_found (generate_rainbow_table seeds n) (hash S) n n p hp
  have hS : chainText seed m = S := hpre seed (tableValue_mem seeds n k' seed hk') m hm h1
  show crackOuter (generate_rainbow_table seeds n) (hash S) n n = .found S
  rw [hp, hS]

set_option maxRecDepth 1000000 in
set_option maxHeartbeats 4000000 in
/-- Witness for C8: the one-seed table built from `"a"` with chain length 1. -/
theorem c8_witness :
    ((0 : Nat) < 1 ∧ strBytes "a" ∈ [strBytes "a"]) ∧
      crackBytes (generate_rainbow_table [strBytes "a"] 1) (hash (strBytes "a")) 1
        = .found (strBytes "a") :=
  ⟨⟨by omega, by decide⟩,
   c8_crack_finds_uncollided_seed [strBytes "a"] (strBytes "a") 1 (by omega) (by decide)
     (by decide) (by decide)⟩

/-- **C9.**  A target digest that is an endpoint digest of a stored chain
but equals none of the digests at chain positions `0..n-1` of any stored
chain is never matched: every lookup key the search computes is the hash of
at least one further reduction, and the forward replay compares the target
only against positions `0..n-1`, so `crack_hash` returns `None`. -/
theorem c9_pure_endpoint_not_found (seeds : List (List Nat)) (n : Nat) (target : List Nat)
    (htgt : ∃ S0 ∈ seeds, target = endpointOf S0 n)
    (hmiss : ∀ s' ∈ seeds, ∀ k, k < n → hash (chainText s' k) ≠ target) :
    crack_hash (generate_rainbow_table seeds n) (hexEncode target) n = .notFound := by
  obtain ⟨S0, hS0, rfl⟩ := htgt
  have hlen : 8 ≤ (endpointOf S0 n).length := by rw [endpointOf, hash_length]; omega
  have houter : ∀ fo, crackOuter (generate_rainbow_table seeds n) (endpointOf S0 n) n fo
      = .notFound := by
    intro fo
    induction fo with
    | zero => rfl
    | succ f ih =>
      rcases crackInner_no_panic (generate_rainbow_table seeds n) (endpointOf S0 n) n
          (n - f) f (endpointOf S0 n) hlen with h | ⟨p, h⟩
      · simp only [crackOuter, h]
        exact ih
      · exfalso
        obtain ⟨h1, seed, k', hk', m, hm, hp⟩ :=
          crackInner_found (generate_rainbow_table seeds n) (endpointOf S0 n) n
            (n - f) f (endpointOf S0 n) p h
        exact hmiss seed (tableValue_mem seeds n k' seed hk') m hm (by rw [← hp]; exact h1)
  have hdec : hexDecode (hexEncode (endpointOf S0 n)) = some (endpointOf S0 n) :=
    hexDecode_encode _ (by intro x hx; rw [endpointOf] at hx; exact hash_lt _ x hx)
  simp only [crack_hash, hdec]
  exact houter n

set_option maxRecDepth 1000000 in
set_option maxHeartbeats 4000000 in
/-- Witness for C9: the endpoint of the one stored chain from `"a"`. -/
theorem c9_witness :
    (∃ S0 ∈ [strBytes "a"], endpointOf (strBytes "a") 1 = endpointOf S0 1) ∧
      crack_hash (generate_rainbow_table [strBytes "a"] 1)
        (hexEncode (endpointOf (strBytes "a") 1)) 1 = .notFound :=
  ⟨⟨strBytes "a", by decide, rfl⟩,
   c9_pure_endpoint_not_found [strBytes "a"] 1 (endpointOf (strBytes "a") 1)
     ⟨strBytes "a", by decide, rfl⟩ (by decide)⟩

/-! ## Round-trip lemmas for the JSON persistence -/
theorem parseStringBody_enc (s : List Nat) : ∀ rest,
    parseStringBody (encStringBody s ++ (34 :: rest)) = some (s, rest) := by
  induction s with
  | nil =>
    intro rest
    rw [show encStringBody [] ++ (34 :: rest) = 34 :: rest by simp [encStringBody],
      parseStringBody.eq_def]
    simp
  | cons b s' ih =>
    intro rest
    show parseStringBody ((escByte b ++ encStringBody s') ++ (34 :: rest)) = some (b :: s', rest)
    rw [List.append_assoc, escByte]
    split_ifs with h1 h2 h3 h4 h5 h6 h7 h8
    · subst h1; rw [List.cons_append, List.cons_append, List.nil_append,
        parseStringBody.eq_def]; simp [ih]
    · subst h2; rw [List.cons_append, List.cons_append, List.nil_append,
        parseStringBody.eq_def]; simp [ih]
    · subst h3; rw [List.cons_append, List.cons_append, List.nil_append,
        parseStringBody.eq_def]; simp [ih]
    · subst h4; rw [List.cons_append, List.cons_append, List.nil_append,
        parseStringBody.eq_def]; simp [ih]
    · subst h5; rw [List.cons_append, List.cons_append, List.nil_append,
        parseStringBody.eq_def]; simp [ih]
    · subst h6; rw [List.cons_append, List.cons_append, List.nil_append,
        parseStringBody.eq_def]; simp [ih]
    · subst h7; rw [List.cons_append, List.cons_append, List.nil_append,
        parseStringBody.eq_def]; simp [ih]
    · simp only [List.cons_append, List.nil_append]
      rw [parseStringBody.eq_def]
      norm_num
      rw [show hexVal 48 = some 0 from rfl,
        hexVal_hexDigit (b / 16) (by omega), hexVal_hexDigit (b % 16) (by omega)]
      simp [ih]
      omega
    · simp only [List.cons_append, List.nil_append]
      rw [parseStringBody.eq_def]
      simp [h1, h2, h8, ih]

theorem parseString_enc (s : List Nat) : ∀ rest,
    parseString (encString s ++ rest) = some (s, rest) := by
  intro rest
  show parseString ((34 :: (encStringBody s ++ [34])) ++ rest) = some (s, rest)
  simp only [List.cons_append, List.append_assoc, List.singleton_append]
  simp [parseString, parseStringBody_enc]

theorem parseMembers_enc : ∀ (t : Table) (f : Nat), t ≠ [] → t.length ≤ f →
    ∀ rest, parseMembers f (encMembers t ++ (125 :: rest)) = some (t, 125 :: rest) := by
  intro t
  induction t with
  | nil => intro f h; exact absurd rfl h
  | cons kv t' ih =>
    intro f _ hf rest
    obtain ⟨k, v⟩ := kv
    obtain ⟨f', rfl⟩ : ∃ f', f = f' + 1 := ⟨f - 1, by simp at hf; omega⟩
    cases t' with
    | nil =>
      show parseMembers (f' + 1)
        ((encString k ++ (58 :: encString v)) ++ (125 :: rest)) = _
      rw [List.append_assoc, List.cons_append, parseMembers.eq_def]
      simp only [parseString_enc]
      norm_num
    | cons kv2 t'' =>
      show parseMembers (f' + 1)
        (((encString k ++ (58 :: encString v)) ++ (44 :: encMembers (kv2 :: t''))) ++ (125 :: rest)) = _
      rw [List.append_assoc, List.append_assoc, List.cons_append, List.cons_append,
        parseMembers.eq_def]
      simp only [parseString_enc]
      norm_num
      exact ih f' (by simp) (by simp at hf ⊢; omega) rest

theorem encMembers_length_ge : ∀ t : Table, t.length ≤ (encMembers t).length := by
  intro t
  induction t with
  | nil => simp [encMembers]
  | cons kv t' ih =>
    obtain ⟨k, v⟩ := kv
    cases t' with
    | nil => simp [encMembers, encString]
    | cons kv2 t'' =>
      simp only [encMembers] at ih ⊢
      simp [encString] at ih ⊢
      omega

/-- **C10.**  Loading a saved table reproduces the identical mapping:
`load(save(table))` yields exactly the table's key/value pairs, with no
extras and no loss, for every table. -/
theorem c10_save_load_roundtrip (t : Table) :
    load_rainbow_table (save_rainbow_table t) = some t := by
  show load_rainbow_table
    (123 :: (encString (strBytes "table") ++ (58 :: 123 :: (encMembers t ++ [125, 125]))))
    = some t
  cases t with
  | nil => decide
  | cons kv t' =>
    obtain ⟨k, v⟩ := kv
    rw [load_rainbow_table.eq_def]
    norm_num
    rw [parseString_enc]
    norm_num
    obtain ⟨TL, hTL⟩ : ∃ TL, encMembers ((k, v) :: t') ++ [125, 125] = 34 :: TL := by
      cases t' with
      | nil =>
        exact ⟨encStringBody k ++ 34 :: 58 :: 34 :: (encStringBody v ++ [34, 125, 125]),
          by simp [encMembers, encString, List.cons_append, List.append_assoc]⟩
      | cons kv2 t'' =>
        exact ⟨encStringBody k ++ 34 :: 58 :: 34 ::
            (encStringBody v ++ 34 :: 44 :: (encMembers (kv2 :: t'') ++ [125, 125])),
          by simp [encMembers, encString, List.cons_append, List.append_assoc]⟩
    have hlen : ((k, v) :: t').length ≤ (encMembers ((k, v) :: t')).length + 2 := by
      have := encMembers_length_ge ((k, v) :: t')
      omega
    have hobj : parseObjectBody ((encMembers ((k, v) :: t')).length + 2)
        (encMembers ((k, v) :: t') ++ [125, 125]) = some ((k, v) :: t', [125]) := by
      rw [hTL, parseObjectBody.eq_def]
      norm_num
      rw [← hTL, parseMembers_enc ((k, v) :: t') _ (by simp) hlen [125]]
    rw [hobj]
    norm_num

end Rainbow
